import Mathlib

/-!
Verification of the QuickMock mock-API serving engine against its
specification.  The TypeScript sources (`src/template.ts`, `src/store.ts`,
`src/server.ts`, `src/types.ts`) are shallowly embedded below: pure
functions become Lean functions, the per-request randomness (faker draws,
`Math.random()` error draws, `crypto.randomUUID()`) is passed in as
explicit oracle parameters, and the mutable store / cursor state is
threaded explicitly.  JavaScript numbers are modelled as rationals;
the claims proved here never depend on double rounding or on the exact
decimal rendering of non-integral numbers.
-/

set_option autoImplicit false

namespace QuickMock

/-- JSON values (`JsonValue` in `src/types.ts`): string, number, boolean,
null, array, object.  Objects are insertion-ordered key/value lists, as in
JavaScript; the construction functions below never produce duplicate keys. -/
inductive JsonValue : Type where
  | str (s : String)
  | num (q : ℚ)
  | bool (b : Bool)
  | null
  | arr (items : List JsonValue)
  | obj (fields : List (String × JsonValue))
  deriving Repr, Inhabited

/-- A stored record (`JsonRecord` in `src/types.ts`): a JSON object given
directly as its field list. -/
def JsonRecord : Type := List (String × JsonValue)

instance : Inhabited JsonRecord := ⟨([] : List (String × JsonValue))⟩

/-- JavaScript property read `o[k]` on an object literal: the value of the
first (and only) entry with the given key. -/
def getField (fields : List (String × JsonValue)) (k : String) : Option JsonValue :=
  match fields with
  | [] => none
  | (k2, v) :: rest => if k2 = k then some v else getField rest k

/-- JavaScript object-spread update `\x7b...o, [k]: v\x7d`: an existing key is
overwritten in place, a new key is appended at the end. -/
def setKey (fields : List (String × JsonValue)) (k : String) (v : JsonValue) :
    List (String × JsonValue) :=
  match fields with
  | [] => [(k, v)]
  | (k2, v2) :: rest => if k2 = k then (k, v) :: rest else (k2, v2) :: setKey rest k v

/-- String-keyed update for plain string maps (request `params`,
`query`, header maps): overwrite in place or append. -/
def setStr (m : List (String × String)) (k v : String) : List (String × String) :=
  match m with
  | [] => [(k, v)]
  | (k2, v2) :: rest => if k2 = k then (k, v) :: rest else (k2, v2) :: setStr rest k v

/-- Lookup in a string map (first entry with the key). -/
def getStr (m : List (String × String)) (k : String) : Option String :=
  match m with
  | [] => none
  | (k2, v) :: rest => if k2 = k then some v else getStr rest k

-- ── Number rendering ─────────────────────────────────────────────────────

/-- Decimal digits of the fractional part `n / d` (`n < d`), produced by
long division with the given fuel.  Used only to make `numToString` total;
no theorem in this file relies on the rendering of a non-integral number
(JavaScript renders doubles, which rationals do not model exactly). -/
def fracDigits (fuel : ℕ) (n d : ℕ) : String :=
  match fuel with
  | 0 => ""
  | fuel + 1 =>
    if n = 0 then ""
    else
      let q := n * 10 / d
      let r := n * 10 % d
      toString q ++ fracDigits fuel r d

/-- JavaScript `String(n)` for a number: integral values print with no
decimal point; other values print sign, integer part and fraction digits. -/
def numToString (q : ℚ) : String :=
  if q.den = 1 then toString q.num
  else
    let sign := if q < 0 then "-" else ""
    let n := q.num.natAbs
    let d := q.den
    sign ++ toString (n / d) ++ "." ++ fracDigits 20 (n % d) d

-- ── JSON.stringify (compact form) ────────────────────────────────────────

/-- Left brace character, kept out of string literals. -/
def lbrace : Char := Char.ofNat 123

/-- Right brace character, kept out of string literals. -/
def rbrace : Char := Char.ofNat 125

/-- JSON string escaping as performed by `JSON.stringify`: quote,
backslash and control characters are escaped. -/
def escapeJsonChar (c : Char) : String :=
  if c = Char.ofNat 34 then "\\\""
  else if c = '\\' then "\\\\"
  else if c = '\n' then "\\n"
  else if c = '\t' then "\\t"
  else if c = '\r' then "\\r"
  else if c.toNat < 32 then "\\u00" ++ (Nat.toDigits 16 c.toNat).asString
  else String.singleton c

/-- JSON string literal rendering: surrounding quotes plus escapes. -/
def quoteJson (s : String) : String :=
  "\"" ++ String.join (s.toList.map escapeJsonChar) ++ "\""

mutual

/-- `JSON.stringify(v)` (no spacing argument): compact JSON text. -/
def jsonStringify : JsonValue → String
  | .str s => quoteJson s
  | .num q => numToString q
  | .bool b => if b then "true" else "false"
  | .null => "null"
  | .arr items => "[" ++ jsonStringifyList items ++ "]"
  | .obj fields => String.singleton lbrace ++ jsonStringifyFields fields ++ String.singleton rbrace

/-- Comma-separated renderings of array elements. -/
def jsonStringifyList : List JsonValue → String
  | [] => ""
  | [v] => jsonStringify v
  | v :: rest => jsonStringify v ++ "," ++ jsonStringifyList rest

/-- Comma-separated renderings of object entries. -/
def jsonStringifyFields : List (String × JsonValue) → String
  | [] => ""
  | [(k, v)] => quoteJson k ++ ":" ++ jsonStringify v
  | (k, v) :: rest => quoteJson k ++ ":" ++ jsonStringify v ++ "," ++ jsonStringifyFields rest

end

-- ── JavaScript string/number conversions ────────────────────────────────

/-- Parse a run of decimal digits; returns the value and the rest. -/
def takeDigits : List Char → Option (ℕ × List Char)
  | cs =>
    let digits := cs.takeWhile Char.isDigit
    if digits.isEmpty then none
    else some (digits.foldl (fun acc c => acc * 10 + (c.toNat - 48)) 0, cs.dropWhile Char.isDigit)

/-- Count of leading decimal digits. -/
def digitCount (cs : List Char) : ℕ := (cs.takeWhile Char.isDigit).length

/-- JavaScript `Number(s)` for a string, as an exact rational: leading and
trailing whitespace is trimmed, the empty string converts to `0`, decimal
literals with optional sign, fraction and exponent convert exactly, and
hexadecimal literals convert; any other string is NaN (`none`).
(`Infinity` and double rounding are not modelled; no theorem relies on
them.) -/
def jsNumber (s : String) : Option ℚ :=
  let t := s.trim
  if t = "" then some 0
  else
    let cs := t.toList
    let withSign : ℚ → List Char → Option (ℚ × List Char) := fun sign rest =>
      match rest with
      | [] => none
      | _ =>
        match takeDigits rest with
        | some (ip, rest2) =>
          match rest2 with
          | '.' :: rest3 =>
            let fd := digitCount rest3
            match takeDigits rest3 with
            | some (fp, rest4) => some (sign * ((ip : ℚ) + (fp : ℚ) / (10 : ℚ) ^ fd), rest4)
            | none => some (sign * (ip : ℚ), rest3)
          | _ => some (sign * (ip : ℚ), rest2)
        | none =>
          match rest with
          | '.' :: rest3 =>
            let fd := digitCount rest3
            match takeDigits rest3 with
            | some (fp, rest4) => some (sign * ((fp : ℚ) / (10 : ℚ) ^ fd), rest4)
            | none => none
          | _ => none
    let withExp : ℚ × List Char → Option ℚ := fun (v, rest) =>
      match rest with
      | [] => some v
      | 'e' :: rest2 | 'E' :: rest2 =>
        let (esign, rest3) : ℚ × List Char :=
          match rest2 with
          | '+' :: r => (1, r)
          | '-' :: r => (-1, r)
          | r => (1, r)
        match takeDigits rest3 with
        | some (e, []) =>
          some (if esign < 0 then v / (10 : ℚ) ^ e else v * (10 : ℚ) ^ e)
        | _ => none
      | _ => none
    match cs with
    | '0' :: 'x' :: hex | '0' :: 'X' :: hex =>
      if hex ≠ [] ∧ hex.all (fun c => c.isDigit ∨ ('a' ≤ c ∧ c ≤ 'f') ∨ ('A' ≤ c ∧ c ≤ 'F')) then
        some ((hex.foldl (fun acc c =>
          acc * 16 + (if c.isDigit then c.toNat - 48
            else if 'a' ≤ c then c.toNat - 87 else c.toNat - 55)) 0 : ℕ) : ℚ)
      else none
    | '+' :: rest => (withSign 1 rest).bind withExp
    | '-' :: rest => (withSign (-1) rest).bind withExp
    | rest => (withSign 1 rest).bind withExp

mutual

/-- JavaScript `String(v)` (template-literal conversion): strings pass
through, numbers and booleans render, arrays join their members with
commas (a null member joins as the empty string), plain objects render as
`[object Object]`.  (`String(null)` never occurs in the embedded code
paths: they branch on null first, but `Array.prototype.join` can reach
it.) -/
def jsStringOf (v : JsonValue) : String :=
  match v with
  | .str s => s
  | .num q => numToString q
  | .bool b => if b then "true" else "false"
  | .null => "null"
  | .arr items => jsStringOfJoin items
  | .obj _ => "[object Object]"

/-- `Array.prototype.toString`: members converted by `String(·)` and
joined with commas, except that null renders as the empty string. -/
def jsStringOfJoin : List JsonValue → String
  | [] => ""
  | [.null] => ""
  | [v] => jsStringOf v
  | .null :: rest => "," ++ jsStringOfJoin rest
  | v :: rest => jsStringOf v ++ "," ++ jsStringOfJoin rest

end

-- ── Record store (`src/store.ts`) ────────────────────────────────────────
--
-- The store keeps a `Map` of collection name to `Map` of id string to
-- record, plus per-collection metadata `\x7bidField, seedData\x7d`.  The claims
-- act on one collection at a time, so one named collection is modelled:
-- a `Collection` is the inner id-keyed map (insertion-ordered, unique
-- keys), and the `idField` from the metadata is passed to each operation
-- exactly as `store.ts` reads it from `meta`.  `crypto.randomUUID()` is
-- an explicit `uuid` argument.

/-- One collection: the id-string-keyed record map. -/
def Collection : Type := List (String × JsonRecord)

instance : Inhabited Collection := ⟨([] : List (String × JsonRecord))⟩

/-- `Map.get` on a collection. -/
def colGet (col : Collection) (id : String) : Option JsonRecord :=
  match col with
  | [] => none
  | (k, r) :: rest => if k = id then some r else colGet rest id

/-- `Map.has` on a collection. -/
def colHas (col : Collection) (id : String) : Bool :=
  match col with
  | [] => false
  | (k, _) :: rest => if k = id then true else colHas rest id

/-- `Map.set` on a collection: overwrite in place or append. -/
def colSet (col : Collection) (id : String) (r : JsonRecord) : Collection :=
  match col with
  | [] => [(id, r)]
  | (k, r2) :: rest => if k = id then (id, r) :: rest else (k, r2) :: colSet rest id r

/-- `Map.delete` on a collection: the collection without the entry. -/
def colDelete (col : Collection) (id : String) : Collection :=
  match col with
  | [] => []
  | (k, r2) :: rest => if k = id then rest else (k, r2) :: colDelete rest id

/-- `Map.values` of a collection, in insertion order. -/
def colValues (col : Collection) : List JsonRecord := col.map Prod.snd

/-- `coerceId` from `store.ts`: preserve a numeric id type.  If the
original value was a number, `Number(id) || id` — the parsed number unless
it is `0` or NaN, in which case the string id; otherwise the string id. -/
def coerceId (id : String) (original : Option JsonValue) : JsonValue :=
  match original with
  | some (.num _) =>
    match jsNumber id with
    | some q => if q = 0 then .str id else .num q
    | none => .str id
  | _ => .str id

/-- `getIdValue` from `store.ts`: the stringified id-field value when it is
present and non-null, else a fresh UUID. -/
def getIdValue (uuid : String) (item : JsonRecord) (idField : String) : String :=
  match getField item idField with
  | some .null => uuid
  | some v => jsStringOf v
  | none => uuid

/-- One step of `seed` / `reset` from `store.ts`: key the item by its
(string) id and store it with the id field coerced. -/
def seedInsert (uuid : String) (idField : String) (col : Collection) (item : JsonRecord) :
    Collection :=
  let id := getIdValue uuid item idField
  colSet col id (setKey item idField (coerceId id (getField item idField)))

/-- `seed(name, idField, items)` from `store.ts`: build the collection from
the seed items in order; `uuidAt i` is the UUID that
`crypto.randomUUID()` would return for the i-th item (used only when that
item lacks an id). -/
def storeSeed (uuidAt : ℕ → String) (idField : String) (items : List JsonRecord) : Collection :=
  items.enum.foldl (fun col (p : ℕ × JsonRecord) => seedInsert (uuidAt p.1) idField col p.2) []

/-- `reset()` from `store.ts` restores the collection from the seed data
kept in the metadata, re-running the same insertion as `seed`. -/
def storeReset (uuidAt : ℕ → String) (idField : String) (seedData : List JsonRecord) :
    Collection :=
  storeSeed uuidAt idField seedData

/-- `create(name, data)` from `store.ts`: id from the incoming id field if
present and non-null (stringified) else a fresh UUID; the stored item has
the id field coerced against the incoming id value.  Returns the stored
item and the updated collection. -/
def storeCreate (uuid : String) (idField : String) (col : Collection) (incoming : JsonRecord) :
    JsonRecord × Collection :=
  let id :=
    match getField incoming idField with
    | some .null => uuid
    | some v => jsStringOf v
    | none => uuid
  let item := setKey incoming idField (coerceId id (getField incoming idField))
  (item, colSet col id item)

/-- `update(id, data)` from `store.ts`: full replace.  The stored item is
the incoming record with the id field set to `coerceId(id, incoming[idField])`.
Returns null (`none`) when the id is absent. -/
def storeUpdate (idField : String) (col : Collection) (id : String) (incoming : JsonRecord) :
    Option (JsonRecord × Collection) :=
  if colHas col id then
    let item := setKey incoming idField (coerceId id (getField incoming idField))
    some (item, colSet col id item)
  else none

/-- `patch(id, data)` from `store.ts`: shallow merge into the existing
record, with the id field set to `coerceId(id, existing[idField])`. -/
def storePatch (idField : String) (col : Collection) (id : String) (incoming : JsonRecord) :
    Option (JsonRecord × Collection) :=
  match colGet col id with
  | none => none
  | some existing =>
    let merged := incoming.foldl (fun acc (kv : String × JsonValue) => setKey acc kv.1 kv.2) existing
    let item := setKey merged idField (coerceId id (getField existing idField))
    some (item, colSet col id item)

/-- `remove(id)` from `store.ts`. -/
def storeRemove (col : Collection) (id : String) : Bool × Collection :=
  (colHas col id, colDelete col id)

/-- Filter step of `list`: every filter key must match the stringified
field value exactly (`String(item[key]) === val`; a missing field
stringifies as `undefined`). -/
def recordMatchesFilters (filters : List (String × String)) (item : JsonRecord) : Bool :=
  filters.all fun kv =>
    (match getField item kv.1 with
     | some v => jsStringOf v
     | none => "undefined") = kv.2

/-- `list(name, filters, limit, offset)` from `store.ts`: filter, count,
then paginate.  Pagination is modelled for the non-negative `limit` /
`offset` values the server produces. -/
def storeList (col : Collection) (filters : List (String × String))
    (limit : Option ℕ) (offset : Option ℕ) : List JsonRecord × ℕ :=
  let all := colValues col
  let filtered := if filters.isEmpty then all else all.filter (recordMatchesFilters filters)
  let total := filtered.length
  let start := offset.getD 0
  let paged :=
    match limit with
    | some l => (filtered.drop start).take l
    | none => if start > 0 then filtered.drop start else filtered
  (paged, total)

-- ── Template resolver (`src/template.ts`) ────────────────────────────────

/-- `TemplateContext` from `src/types.ts`: route params, parsed body,
query map and header map.  Header values are modelled as single strings
(the `string[]` case of `IncomingHttpHeaders` is not exercised by any
claim). -/
structure TemplateContext where
  params : List (String × String)
  body : JsonValue
  query : List (String × String)
  headers : List (String × String)

/-- The context as the JavaScript object that `resolve(ctx, path)` walks. -/
def ctxToJson (ctx : TemplateContext) : JsonValue :=
  .obj
    [ ("params", .obj (ctx.params.map (fun kv => (kv.1, JsonValue.str kv.2)))),
      ("body", ctx.body),
      ("query", .obj (ctx.query.map (fun kv => (kv.1, JsonValue.str kv.2)))),
      ("headers", .obj (ctx.headers.map (fun kv => (kv.1, JsonValue.str kv.2)))) ]

/-- `EMPTY_CTX` from `src/server.ts`, used for seed generation. -/
def emptyCtx : TemplateContext := ⟨[], .null, [], []⟩

/-- JavaScript property access `acc[key]` for one step of `resolve`:
objects look up the key; arrays expose `length` and canonical numeric
indices; any other value (the reduce guard `typeof acc === 'object' &&
acc !== null` having failed) yields undefined. -/
def jsonGet (v : JsonValue) (key : String) : Option JsonValue :=
  match v with
  | .obj fields => getField fields key
  | .arr items =>
    if key = "length" then some (.num items.length)
    else
      match key.toNat? with
      | some i => if toString i = key then items.get? i else none
      | none => none
  | _ => none

/-- `resolve(obj, dotPath)` from `template.ts`: split on dots and walk
into the object, yielding undefined (`none`) as soon as a step is missing
or the accumulator is not a non-null object. -/
def resolvePath (root : JsonValue) (dotPath : String) : Option JsonValue :=
  (dotPath.splitOn ".").foldl
    (fun acc key => acc.bind (fun v => jsonGet v key)) (some root)

/-- A faker draw oracle: `oracle name` is `String(faker[name]())` for this
draw when the generator exists in the `faker` table of `template.ts`
(every generator there returns a string, number or boolean, so the
conversion is total), and `none` when `faker[name]` is undefined. -/
def FakerOracle : Type := String → Option String

/-- Stringification of a substituted context value in `processString`:
`typeof val === 'object' ? JSON.stringify(val) : String(val)` (null has
typeof object, so it renders as JSON `null`). -/
def substString (v : JsonValue) : String :=
  match v with
  | .obj fields => jsonStringify (.obj fields)
  | .arr items => jsonStringify (.arr items)
  | .null => jsonStringify .null
  | .str s => s
  | .num q => numToString q
  | .bool b => if b then "true" else "false"

/-- The replacement text for one `\x7b\x7bexpr\x7d\x7d` token: trim, try a faker
generator for `faker.`-names, then resolve the dotted path in the
context; an unknown token is reproduced verbatim (with the trimmed key). -/
def substToken (oracle : FakerOracle) (ctx : TemplateContext) (inner : String) : String :=
  let key := inner.trim
  match (if key.startsWith "faker." then oracle (key.drop 6) else none) with
  | some out => out
  | none =>
    match resolvePath (ctxToJson ctx) key with
    | some v => substString v
    | none =>
      String.singleton lbrace ++ String.singleton lbrace ++ key ++
        String.singleton rbrace ++ String.singleton rbrace

/-- Scan for the closing `\x7d\x7d` of a token: the lazy regex
`\x7b\x7b(.*?)\x7d\x7d` takes the earliest closing braces, and `.` does not
match a line terminator, so a newline before the closer means no match at
this opening position.  Returns the token body and the rest of the input. -/
def findClose : List Char → Option (List Char × List Char)
  | [] => none
  | [_] => none
  | c1 :: c2 :: rest2 =>
    if c1 = '\n' ∨ c1 = '\r' then none
    else if c1 = rbrace ∧ c2 = rbrace then some ([], rest2)
    else
      match findClose (c2 :: rest2) with
      | some (body, rest3) => some (c1 :: body, rest3)
      | none => none

/-- The `str.replace(/\x7b\x7b(.*?)\x7d\x7d/g, ...)` scan of `processString`:
at each position, an opening `\x7b\x7b` with a closer on the same line is
replaced (and scanning resumes after the token, replacements are not
rescanned); otherwise the character is literal.  A position where the
token cannot be completed is literal, matching the regex engine trying
the next start position.  The structural `fuel` argument only bounds the
recursion; `processString` passes the input length, which every
recursive call stays under because a replaced token consumes at least
four characters. -/
def scanTemplate (oracle : FakerOracle) (ctx : TemplateContext) :
    ℕ → List Char → String
  | _, [] => ""
  | 0, cs => String.mk cs
  | fuel + 1, a :: rest =>
    match rest with
    | [] => String.singleton a
    | b :: rest2 =>
      if a = lbrace ∧ b = lbrace then
        match findClose rest2 with
        | some (body, rest3) =>
          substToken oracle ctx (String.mk body) ++ scanTemplate oracle ctx fuel rest3
        | none => String.singleton a ++ scanTemplate oracle ctx fuel rest
      else String.singleton a ++ scanTemplate oracle ctx fuel rest

/-- `processString(str, ctx)` from `template.ts`. -/
def processString (oracle : FakerOracle) (ctx : TemplateContext) (s : String) : String :=
  scanTemplate oracle ctx s.toList.length s.toList

-- ── Auto-coercion of pure-template strings ──────────────────────────────

/-- The integer-literal test `/^-?\d+$/`. -/
def isIntLit (s : String) : Bool :=
  match s.toList with
  | '-' :: rest => rest ≠ [] ∧ rest.all Char.isDigit
  | rest => rest ≠ [] ∧ rest.all Char.isDigit

/-- The decimal-literal test `/^-?\d+\.\d+$/`. -/
def isDecLit (s : String) : Bool :=
  let core : List Char → Bool := fun cs =>
    let ip := cs.takeWhile Char.isDigit
    match cs.drop ip.length with
    | '.' :: frac => ip ≠ [] ∧ frac ≠ [] ∧ frac.all Char.isDigit
    | _ => false
  match s.toList with
  | '-' :: rest => core rest
  | rest => core rest

/-- `parseInt(s, 10)` on a string that passed `isIntLit` (digits with an
optional sign), as an exact integer. -/
def parseIntLit (s : String) : ℤ :=
  match s.toList with
  | '-' :: rest => -(rest.foldl (fun acc c => acc * 10 + (c.toNat - 48)) 0 : ℕ)
  | rest => (rest.foldl (fun acc c => acc * 10 + (c.toNat - 48)) 0 : ℕ)

/-- `parseFloat(s)` on a string that passed `isDecLit`, as an exact
rational (double rounding is not modelled; no theorem compares the
numeric value of a decimal-coerced template). -/
def parseDecLit (s : String) : ℚ :=
  let core : List Char → ℚ := fun cs =>
    let ip := cs.takeWhile Char.isDigit
    let frac := (cs.drop (ip.length + 1)).takeWhile Char.isDigit
    (ip.foldl (fun acc c => acc * 10 + (c.toNat - 48)) 0 : ℕ) +
      ((frac.foldl (fun acc c => acc * 10 + (c.toNat - 48)) 0 : ℕ) : ℚ) / (10 : ℚ) ^ frac.length
  match s.toList with
  | '-' :: rest => -(core rest)
  | rest => core rest

/-- The auto-coercion applied by `processTemplate` to a processed string:
exactly `"true"`, exactly `"false"`, the integer pattern, the decimal
pattern, else the string itself. -/
def coerceResult (r : String) : JsonValue :=
  if r = "true" then .bool true
  else if r = "false" then .bool false
  else if isIntLit r then .num (parseIntLit r)
  else if isDecLit r then .num (parseDecLit r)
  else .str r

mutual

/-- `processTemplate(data, ctx)` from `template.ts`: strings are scanned
and auto-coerced, arrays and objects recurse (object keys are scanned as
strings), other scalars pass through. -/
def processTemplate (oracle : FakerOracle) (ctx : TemplateContext) : JsonValue → JsonValue
  | .str s => coerceResult (processString oracle ctx s)
  | .arr items => .arr (processTemplateList oracle ctx items)
  | .obj fields => .obj (processTemplateFields oracle ctx fields)
  | v => v

/-- Elementwise recursion of `processTemplate` over an array. -/
def processTemplateList (oracle : FakerOracle) (ctx : TemplateContext) :
    List JsonValue → List JsonValue
  | [] => []
  | v :: rest => processTemplate oracle ctx v :: processTemplateList oracle ctx rest

/-- Entrywise recursion of `processTemplate` over an object: keys through
`processString`, values recursively. -/
def processTemplateFields (oracle : FakerOracle) (ctx : TemplateContext) :
    List (String × JsonValue) → List (String × JsonValue)
  | [] => []
  | (k, v) :: rest =>
    (processString oracle ctx k, processTemplate oracle ctx v) ::
      processTemplateFields oracle ctx rest

end

-- ── Route/override types (`src/types.ts`) ────────────────────────────────

/-- `SequenceStep` from `src/types.ts`: one position of a multi-step
sequence.  `sticky?: boolean` is read by truthiness, so the absent case is
folded into `false`. -/
structure SequenceStep where
  status : Option ℕ := none
  response : Option JsonValue := none
  delay : Option ℚ := none
  headers : List (String × String) := []
  sticky : Bool := false

instance : Inhabited SequenceStep := ⟨{}⟩

/-- `RouteRule` from `src/types.ts`: a conditional response rule.  An
absent `when` map is folded into the empty list (both match
unconditionally). -/
structure RouteRule where
  «when» : List (String × String) := []
  status : Option ℕ := none
  response : Option JsonValue := none
  delay : Option ℚ := none
  headers : List (String × String) := []

/-- `RouteConfig` from `src/types.ts`: a route as written in the config
file. -/
structure RouteConfig where
  method : Option String := none
  path : String
  status : Option ℕ := none
  response : Option JsonValue := none
  responses : Option (List JsonValue) := none
  headers : Option (List (String × String)) := none
  delay : Option ℚ := none
  error : Option ℚ := none
  errorStatus : Option ℕ := none
  sequence : List SequenceStep := []
  rules : List RouteRule := []

/-- `Route` from `src/types.ts` as produced by `parseRouteConfigs` in
`src/server.ts` (which copies only the fields below — the `sequence` and
`rules` fields of `RouteConfig` are not carried over by the `server.ts`
under verification). -/
structure Route where
  method : String
  path : String
  status : ℕ
  response : Option JsonValue := none
  responses : Option (List JsonValue) := none
  headers : List (String × String) := []
  delay : Option ℚ := none
  error : Option ℚ := none
  errorStatus : Option ℕ := none

/-- JavaScript `toUpperCase` restricted to ASCII (method strings). -/
def asciiUpper (s : String) : String :=
  String.mk (s.toList.map fun c =>
    if 'a' ≤ c ∧ c ≤ 'z' then Char.ofNat (c.toNat - 32) else c)

/-- `parseRouteConfigs` from `src/server.ts`: method defaults to GET and
is upper-cased, `status || 200` (so an absent or zero status becomes
200), headers default to empty. -/
def parseRouteConfigs (raw : List RouteConfig) : List Route :=
  raw.map fun r =>
    { method := asciiUpper (r.method.getD "GET")
      path := r.path
      status := match r.status with | some s => if s = 0 then 200 else s | none => 200
      response := r.response
      responses := r.responses
      headers := r.headers.getD []
      delay := r.delay
      error := r.error
      errorStatus := r.errorStatus }

/-- `RuntimeOverride` from `src/types.ts`: a sparse patch over a route's
or resource's static behavior. -/
structure RuntimeOverride where
  delay : Option ℚ := none
  error : Option ℚ := none
  disabled : Option Bool := none
  passthrough : Option Bool := none

-- ── Route matching (`matchRoute` in `src/server.ts`) ────────────────────

/-- `path.split('/').filter(Boolean)`: the non-empty slash-separated
segments. -/
def pathSegs (p : String) : List String :=
  ((p.toList.foldr
    (fun c (acc : List (List Char)) =>
      if c = '/' then [] :: acc
      else match acc with
        | seg :: rest => (c :: seg) :: rest
        | [] => [[c]])
    [[]]).map String.mk).filter (fun s => s ≠ "")

/-- The per-segment loop of `matchRoute`: a `:param` segment binds the
decoded positional request segment (later bindings of the same name
overwrite earlier ones, as JavaScript object assignment does), a literal
segment must match exactly; `dec` is `decodeURIComponent`. -/
def matchSegs (dec : String → String) :
    List String → List String → List (String × String) → Option (List (String × String))
  | [], [], acc => some acc
  | r :: rs, p :: ps, acc =>
    if r.startsWith ":" then matchSegs dec rs ps (setStr acc (r.drop 1) (dec p))
    else if r = p then matchSegs dec rs ps acc
    else none
  | _, _, _ => none

/-- One route's structural match: method equal or `*`, equal segment
count, and the segment loop succeeding. -/
def tryRoute (dec : String → String) (method : String) (segs : List String) (route : Route) :
    Option (List (String × String)) :=
  if route.method ≠ method ∧ route.method ≠ "*" then none
  else
    let rSegs := pathSegs route.path
    if rSegs.length ≠ segs.length then none
    else matchSegs dec rSegs segs []

/-- `matchRoute` from `src/server.ts`: routes tried in declaration order,
first structural match wins. -/
def matchRoute (dec : String → String) (routes : List Route) (method pathname : String) :
    Option (Route × List (String × String)) :=
  match routes with
  | [] => none
  | route :: rest =>
    match tryRoute dec method (pathSegs pathname) route with
    | some params => some (route, params)
    | none => matchRoute dec rest method pathname

-- ── Override-gated request handling (`handleRequest` in `src/server.ts`) ─

/-- The `??`-chain for the effective delay:
`override?.delay ?? static.delay ?? currentConfig.delay ?? 0`.  The
override contributes only when the override entry exists and its `delay`
is non-undefined (including `0`). -/
def effectiveDelay (ov : Option RuntimeOverride) (staticDelay serverDefault : Option ℚ) : ℚ :=
  (((ov.bind RuntimeOverride.delay).or staticDelay).or serverDefault).getD 0

/-- The `??`-chain for the effective error rate:
`override?.error ?? static.error ?? 0`. -/
def effectiveError (ov : Option RuntimeOverride) (staticError : Option ℚ) : ℚ :=
  ((ov.bind RuntimeOverride.error).or staticError).getD 0

/-- `route.errorStatus || 500` (and the same for resources): absent or
zero becomes 500. -/
def errStatusOf (errorStatus : Option ℕ) : ℕ :=
  match errorStatus with
  | some s => if s = 0 then 500 else s
  | none => 500

/-- The fixed 503 body for a disabled route:
`JSON.stringify(\x7berror: 'Service Unavailable', message: 'Endpoint temporarily disabled'\x7d)`. -/
def disabledRouteBody : String :=
  jsonStringify (.obj
    [("error", .str "Service Unavailable"), ("message", .str "Endpoint temporarily disabled")])

/-- The fixed 503 body for a disabled resource. -/
def disabledResourceBody : String :=
  jsonStringify (.obj
    [("error", .str "Service Unavailable"), ("message", .str "Resource temporarily disabled")])

/-- What a matched route or resource branch of `handleRequest` does with
the request.  `sleptMs` is the duration actually awaited before
continuing (`if (delay > 0) await ...`); the `disabled` outcome happens
before any delay or error logic.  `mock` carries the resolved response
value prior to serialization (`res.end` then writes the string itself or
`JSON.stringify(data, null, 2)`).  `proxied` is produced only by the
spec-modelled passthrough dispatch further below. -/
inductive Outcome where
  | disabled (status : ℕ) (body : String)
  | injected (sleptMs : ℚ) (status : ℕ)
  | mock (sleptMs : ℚ) (status : ℕ) (headers : List (String × String)) (body : Option JsonValue)
  | proxied
  deriving Repr

/-- `if (delay > 0) await sleep(delay)`: the awaited duration. -/
def sleptFor (delay : ℚ) : ℚ := if delay > 0 then delay else 0

/-- JavaScript header-object spread
`\x7b'Content-Type': 'application/json', ...route.headers\x7d`. -/
def mergeHeaders (extra : List (String × String)) : List (String × String) :=
  extra.foldl (fun acc kv => setStr acc kv.1 kv.2) [("Content-Type", "application/json")]

/-- The matched-route branch of `handleRequest` (`src/server.ts`):
disabled-override short-circuit, override-gated delay, override-gated
error injection (`draw` is the `Math.random()` value, error fires when
`errorRate > 0 && draw < errorRate`), then response resolution — a
uniform pick out of `responses` when non-empty (`pick` is the drawn
index, already reduced into range) else the static `response`, run
through the template resolver unless null/undefined. -/
def routeBranch (ov : Option RuntimeOverride) (serverDelay : Option ℚ) (route : Route)
    (draw : ℚ) (pick : ℕ) (oracle : FakerOracle) (ctx : TemplateContext) : Outcome :=
  if (ov.bind RuntimeOverride.disabled).getD false then
    .disabled 503 disabledRouteBody
  else
    let delay := effectiveDelay ov route.delay serverDelay
    let errorRate := effectiveError ov route.error
    if errorRate > 0 ∧ draw < errorRate then
      .injected (sleptFor delay) (errStatusOf route.errorStatus)
    else
      let responseData : Option JsonValue :=
        match route.responses with
        | some rs => if rs.length > 0 then some (rs.getD (pick % rs.length) .null) else route.response
        | none => route.response
      let processed : Option JsonValue :=
        match responseData with
        | some .null => some .null
        | some v => some (processTemplate oracle ctx v)
        | none => none
      let status := if route.status = 0 then 200 else route.status
      let headers := mergeHeaders route.headers
      let body : Option JsonValue :=
        match processed with
        | some .null => none
        | some v => some v
        | none => none
      .mock (sleptFor delay) status headers body

-- ── Resources (`src/server.ts` / `src/store.ts`) ────────────────────────

/-- `ResourceConfig` from `src/types.ts` (the `relations` field is not
read by the serving engine under verification). -/
structure ResourceConfig where
  basePath : String
  seed : JsonValue
  count : Option ℕ := none
  idField : Option String := none
  delay : Option ℚ := none
  error : Option ℚ := none
  errorStatus : Option ℕ := none

/-- `ResourceEntry` from `src/types.ts`. -/
structure ResourceEntry where
  name : String
  basePath : String
  idField : String
  delay : Option ℚ := none
  error : Option ℚ := none
  errorStatus : Option ℕ := none

/-- The object filter of `seedResources`:
`processed && typeof processed === 'object' && !Array.isArray(processed)`
keeps exactly the (always-truthy) plain objects. -/
def asRecord : JsonValue → Option JsonRecord
  | .obj fields => some fields
  | _ => none

/-- `cfg.count ?? 5`. -/
def countOf (cfg : ResourceConfig) : ℕ := cfg.count.getD 5

/-- The seed loop of `seedResources` for one resource: `count`
instantiations of the seed template against the empty context
(`oracleAt i` is the faker oracle for the i-th instantiation), keeping
only those whose processed result is a plain object. -/
def seedItems (oracleAt : ℕ → FakerOracle) (seedTemplate : JsonValue) (count : ℕ) :
    List JsonRecord :=
  (List.range count).filterMap fun i => asRecord (processTemplate (oracleAt i) emptyCtx seedTemplate)

/-- One entry of `seedResources` from `src/server.ts`: derive the entry
and seed the store collection. -/
def seedResource (uuidAt : ℕ → String) (oracleAt : ℕ → FakerOracle)
    (name : String) (cfg : ResourceConfig) : ResourceEntry × Collection :=
  let idField := cfg.idField.getD "id"
  let items := seedItems oracleAt cfg.seed (countOf cfg)
  (⟨name, cfg.basePath, idField, cfg.delay, cfg.error, cfg.errorStatus⟩,
    storeSeed uuidAt idField items)

/-- JavaScript `parseInt` for the non-negative query values the engine
passes to `list` (`limit`/`offset`): leading decimal digits after
trimming; NaN (`none`) otherwise. -/
def parseIntJS (s : String) : Option ℕ :=
  match takeDigits s.trim.toList with
  | some (n, _) => some n
  | none => none

/-- The result of `handleResourceCrud`: status, data (none both for a
null body and an undefined one — the caller treats them alike), extra
headers, and the collection after the operation. -/
structure CrudResult where
  status : ℕ
  data : Option JsonValue
  headers : List (String × String) := []
  col : Collection

/-- The not-found body `\x7berror: 'Not Found', message: ...\x7d`. -/
def notFoundBody (resourceName id : String) : JsonValue :=
  .obj [("error", .str "Not Found"),
        ("message", .str (resourceName ++ " \"" ++ id ++ "\" not found"))]

/-- `handleResourceCrud` from `src/server.ts`: dispatch on method and
presence of an id.  A non-object body is replaced by `\x7b\x7d` for
POST/PUT/PATCH. -/
def handleResourceCrud (uuid : String) (resource : ResourceEntry) (col : Collection)
    (method : String) (id : Option String) (body : JsonValue)
    (query : List (String × String)) : CrudResult :=
  let incoming : JsonRecord := match body with | .obj fields => fields | _ => []
  match method, id with
  | "GET", none =>
    let limit := getStr query "limit"
    let offset := getStr query "offset"
    let filters := (query.filter fun kv => kv.1 ≠ "limit" ∧ kv.1 ≠ "offset")
    let result := storeList col filters (limit.bind parseIntJS) (offset.bind parseIntJS)
    { status := 200, data := some (.arr (result.1.map JsonValue.obj)),
      headers := [("X-Total-Count", toString result.2)], col := col }
  | "GET", some id =>
    match colGet col id with
    | none => { status := 404, data := some (notFoundBody resource.name id), col := col }
    | some item => { status := 200, data := some (.obj item), col := col }
  | "POST", _ =>
    let r := storeCreate uuid resource.idField col incoming
    { status := 201, data := some (.obj r.1), col := r.2 }
  | "PUT", some id =>
    match storeUpdate resource.idField col id incoming with
    | none => { status := 404, data := some (notFoundBody resource.name id), col := col }
    | some r => { status := 200, data := some (.obj r.1), col := r.2 }
  | "PATCH", some id =>
    match storePatch resource.idField col id incoming with
    | none => { status := 404, data := some (notFoundBody resource.name id), col := col }
    | some r => { status := 200, data := some (.obj r.1), col := r.2 }
  | "DELETE", some id =>
    let r := storeRemove col id
    if r.1 then { status := 204, data := none, col := r.2 }
    else { status := 404, data := some (notFoundBody resource.name id), col := col }
  | _, _ => { status := 405, data := some (.obj [("error", .str "Method Not Allowed")]), col := col }

/-- The matched-resource branch of `handleRequest` (`src/server.ts`):
disabled-override short-circuit with the resource 503 body,
override-gated delay and error injection, then the CRUD dispatch.  The
`mock` outcome carries the CRUD data; the updated collection is returned
alongside. -/
def resourceBranch (ov : Option RuntimeOverride) (serverDelay : Option ℚ)
    (resource : ResourceEntry) (col : Collection) (draw : ℚ) (uuid : String)
    (method : String) (id : Option String) (body : JsonValue)
    (query : List (String × String)) : Outcome × Collection :=
  if (ov.bind RuntimeOverride.disabled).getD false then
    (.disabled 503 disabledResourceBody, col)
  else
    let delay := effectiveDelay ov resource.delay serverDelay
    let errorRate := effectiveError ov resource.error
    if errorRate > 0 ∧ draw < errorRate then
      (.injected (sleptFor delay) (errStatusOf resource.errorStatus), col)
    else
      let r := handleResourceCrud uuid resource col method id body query
      (.mock (sleptFor delay) r.status (mergeHeaders r.headers) r.data, r.col)

-- ── Request-body parsing (`parseBody` in `src/server.ts`) ───────────────

/-- The `end` handler of `parseBody` in `src/server.ts`, as a function of
the raw concatenated body text and of the JSON parser:
`try \x7b resolve(JSON.parse(raw)) \x7d catch \x7b resolve(raw || null) \x7d` — on a
parse failure the raw string resolves when non-empty (it is falsy only
when empty) and null otherwise.  The promise always resolves, never
rejects. -/
def parseBodyResult (tryParse : String → Option JsonValue) (raw : String) : JsonValue :=
  match tryParse raw with
  | some v => v
  | none => if raw = "" then .null else .str raw

-- A concrete model of the `JSON.parse` builtin (strict JSON grammar),
-- used to instantiate `parseBodyResult` on concrete inputs.  The `fuel`
-- argument (instantiated with the input length) only bounds recursion
-- depth; every recursive call consumes input.

/-- JSON insignificant whitespace. -/
def jsonWs (c : Char) : Bool :=
  c = ' ' ∨ c = '\t' ∨ c = '\n' ∨ c = '\r'

/-- Strict JSON number: `-? (0 | [1-9][0-9]*) (\.[0-9]+)? ([eE][+-]?[0-9]+)?`. -/
def jsonNumber : List Char → Option (ℚ × List Char) := fun cs =>
  let (sign, cs1) : ℚ × List Char :=
    match cs with
    | '-' :: rest => (-1, rest)
    | rest => (1, rest)
  match takeDigits cs1 with
  | none => none
  | some (ip, cs2) =>
    if (cs1.takeWhile Char.isDigit).length > 1 ∧ cs1.headD ' ' = '0' then none
    else
      let (val, cs3) : ℚ × List Char :=
        match cs2 with
        | '.' :: cs2b =>
          match takeDigits cs2b with
          | some (fp, cs2c) => ((ip : ℚ) + (fp : ℚ) / (10 : ℚ) ^ digitCount cs2b, cs2c)
          | none => ((ip : ℚ), cs2)
        | _ => ((ip : ℚ), cs2)
      match cs2 with
      | '.' :: cs2b =>
        if (takeDigits cs2b).isNone then none
        else jsonNumberExp (sign * val) cs3
      | _ => jsonNumberExp (sign * val) cs3
where
  /-- Optional exponent part. -/
  jsonNumberExp (v : ℚ) : List Char → Option (ℚ × List Char) := fun cs =>
    match cs with
    | 'e' :: rest | 'E' :: rest =>
      let (esign, rest2) : Bool × List Char :=
        match rest with
        | '+' :: r => (false, r)
        | '-' :: r => (true, r)
        | r => (false, r)
      match takeDigits rest2 with
      | some (e, rest3) =>
        some (if esign then v / (10 : ℚ) ^ e else v * (10 : ℚ) ^ e, rest3)
      | none => none
    | rest => some (v, rest)

/-- Strict JSON string body after the opening quote, with escapes. -/
def jsonString : ℕ → List Char → Option (String × List Char)
  | 0, _ => none
  | _, [] => none
  | fuel + 1, c :: rest =>
    if c = Char.ofNat 34 then some ("", rest)
    else if c = '\\' then
      match rest with
      | e :: rest2 =>
        let esc : Option (String × List Char) :=
          if e = Char.ofNat 34 then some (String.singleton (Char.ofNat 34), rest2)
          else if e = '\\' then some ("\\", rest2)
          else if e = '/' then some ("/", rest2)
          else if e = 'b' then some (String.singleton (Char.ofNat 8), rest2)
          else if e = 'f' then some (String.singleton (Char.ofNat 12), rest2)
          else if e = 'n' then some ("\n", rest2)
          else if e = 'r' then some ("\r", rest2)
          else if e = 't' then some ("\t", rest2)
          else if e = 'u' then
            match rest2 with
            | h1 :: h2 :: h3 :: h4 :: rest3 =>
              let hexVal : Char → Option ℕ := fun c =>
                if c.isDigit then some (c.toNat - 48)
                else if 'a' ≤ c ∧ c ≤ 'f' then some (c.toNat - 87)
                else if 'A' ≤ c ∧ c ≤ 'F' then some (c.toNat - 55)
                else none
              match hexVal h1, hexVal h2, hexVal h3, hexVal h4 with
              | some a, some b, some cc, some d =>
                some (String.singleton (Char.ofNat (((a * 16 + b) * 16 + cc) * 16 + d)), rest3)
              | _, _, _, _ => none
            | _ => none
          else none
        match esc with
        | some (s, rest2) =>
          match jsonString fuel rest2 with
          | some (t, rest3) => some (s ++ t, rest3)
          | none => none
        | none => none
      | [] => none
    else if c.toNat < 32 then none
    else
      match jsonString fuel rest with
      | some (t, rest2) => some (String.singleton c ++ t, rest2)
      | none => none

mutual

/-- Strict JSON value parser (model of the `JSON.parse` grammar). -/
def jsonValue : ℕ → List Char → Option (JsonValue × List Char)
  | 0, _ => none
  | fuel + 1, cs =>
    match cs.dropWhile jsonWs with
    | 'n' :: 'u' :: 'l' :: 'l' :: rest => some (.null, rest)
    | 't' :: 'r' :: 'u' :: 'e' :: rest => some (.bool true, rest)
    | 'f' :: 'a' :: 'l' :: 's' :: 'e' :: rest => some (.bool false, rest)
    | '[' :: rest =>
      (match (rest.dropWhile jsonWs) with
       | ']' :: rest2 => some (.arr [], rest2)
       | _ =>
         match jsonArrayItems fuel rest with
         | some (items, rest2) => some (.arr items, rest2)
         | none => none)
    | c :: rest =>
      if c = lbrace then
        match (rest.dropWhile jsonWs) with
        | c2 :: rest2 =>
          if c2 = rbrace then some (.obj [], rest2)
          else
            (match jsonObjectItems fuel rest with
             | some (fields, rest2) => some (.obj fields, rest2)
             | none => none)
        | [] => none
      else if c = Char.ofNat 34 then
        match jsonString fuel rest with
        | some (s, rest2) => some (.str s, rest2)
        | none => none
      else
        match jsonNumber (c :: rest) with
        | some (q, rest2) => some (.num q, rest2)
        | none => none
    | [] => none

/-- Comma-separated array items, ending at `]`. -/
def jsonArrayItems : ℕ → List Char → Option (List JsonValue × List Char)
  | 0, _ => none
  | fuel + 1, cs =>
    match jsonValue fuel cs with
    | none => none
    | some (v, rest) =>
      match rest.dropWhile jsonWs with
      | ',' :: rest2 =>
        (match jsonArrayItems fuel rest2 with
         | some (items, rest3) => some (v :: items, rest3)
         | none => none)
      | ']' :: rest2 => some ([v], rest2)
      | _ => none

/-- Comma-separated `"key": value` members, ending at the closing brace. -/
def jsonObjectItems : ℕ → List Char → Option (List (String × JsonValue) × List Char)
  | 0, _ => none
  | fuel + 1, cs =>
    match cs.dropWhile jsonWs with
    | c :: rest =>
      if c = Char.ofNat 34 then
        match jsonString fuel rest with
        | none => none
        | some (k, rest2) =>
          match rest2.dropWhile jsonWs with
          | ':' :: rest3 =>
            (match jsonValue fuel rest3 with
             | none => none
             | some (v, rest4) =>
               match rest4.dropWhile jsonWs with
               | ',' :: rest5 =>
                 (match jsonObjectItems fuel rest5 with
                  | some (fields, rest6) => some ((k, v) :: fields, rest6)
                  | none => none)
               | c2 :: rest5 =>
                 if c2 = rbrace then some ([(k, v)], rest5) else none
               | [] => none)
          | _ => none
      else none
    | [] => none

end

/-- The `JSON.parse` model over a whole string: one value surrounded by
whitespace only. -/
def jsonParse (s : String) : Option JsonValue :=
  match jsonValue (2 * s.length + 2) s.toList with
  | some (v, rest) => if (rest.dropWhile jsonWs).isEmpty then some v else none
  | none => none

-- ── Spec-modelled response modes ────────────────────────────────────────
--
-- `src/types.ts` declares `sequence` and `rules` on `RouteConfig` and
-- `passthrough` on `RuntimeOverride`, and `src/docs.ts` and the dashboard
-- consume them, but the serving logic for these three features is not in
-- the `src/server.ts` provided (its `parseRouteConfigs` does not even
-- copy the two fields).  The definitions in this section model that
-- missing logic from the specification text and are marked as such.

/-- Modelled from the spec: the sequence-mode cursor advance (the serving
code for `sequence` routes is missing from the provided `src/server.ts`).
"resolve using `steps[cursor]`; then advance — if the current step is
`sticky`, cursor does not advance; else if `cursor < steps.length - 1`,
increment; else cursor stays at the last index". -/
def seqAdvance (steps : List SequenceStep) (c : ℕ) : ℕ :=
  if (steps.getD c default).sticky then c
  else if c < steps.length - 1 then c + 1
  else c

/-- Modelled from the spec: the step used to answer a request arriving at
cursor `c`. -/
def seqStepAt (steps : List SequenceStep) (c : ℕ) : SequenceStep :=
  steps.getD c default

/-- Modelled from the spec: the per-server cursor table, one cursor per
route index. -/
def SeqCursors : Type := ℕ → ℕ

/-- Modelled from the spec: "one cursor per route index, initialized
to 0". -/
def seqInitial : SeqCursors := fun _ => 0

/-- Modelled from the spec: handling one request against the sequence
route at `routeIdx` — answer from the current step, then advance only
that route's cursor. -/
def seqHandle (steps : List SequenceStep) (routeIdx : ℕ) (cur : SeqCursors) :
    SequenceStep × SeqCursors :=
  (seqStepAt steps (cur routeIdx),
    fun j => if j = routeIdx then seqAdvance steps (cur routeIdx) else cur j)

/-- Modelled from the spec: the steps answering `n` consecutive requests
against a sequence route whose cursor starts at `c`. -/
def seqTrace (steps : List SequenceStep) (c : ℕ) : ℕ → List SequenceStep
  | 0 => []
  | n + 1 => seqStepAt steps c :: seqTrace steps (seqAdvance steps c) n

/-- Modelled from the spec: rule matching (the serving code for `rules`
routes is missing from the provided `src/server.ts`).  "a rule matches if
every `when` key (dotted path into context) stringifies equal to the
rule's literal value"; an absent or empty `when` therefore matches
unconditionally. -/
def ruleMatches (ctx : TemplateContext) (rule : RouteRule) : Bool :=
  rule.when.all fun kv =>
    match resolvePath (ctxToJson ctx) kv.1 with
    | some v => substString v = kv.2
    | none => false

/-- Modelled from the spec: "evaluate rule list in order; ... first
matching rule ... wins; no match ⇒ fall back to the route's base
`status`/`response`".  Returns the effective status and response. -/
def resolveRules (baseStatus : ℕ) (baseResponse : Option JsonValue)
    (rules : List RouteRule) (ctx : TemplateContext) : ℕ × Option JsonValue :=
  match rules.find? (ruleMatches ctx) with
  | some rule => (rule.status.getD baseStatus, rule.response.or baseResponse)
  | none => (baseStatus, baseResponse)

/-- Modelled from the spec: the passthrough gate (`passthrough` handling
is missing from the provided `src/server.ts`).  "`passthrough:true`
(route or resource) forces the request to bypass the normal handler and
go through the proxy path even though a static match exists" — checked on
the matched route before the normal branch runs. -/
def dispatchRoute (ov : Option RuntimeOverride) (serverDelay : Option ℚ) (route : Route)
    (draw : ℚ) (pick : ℕ) (oracle : FakerOracle) (ctx : TemplateContext) : Outcome :=
  if (ov.bind RuntimeOverride.passthrough).getD false then .proxied
  else routeBranch ov serverDelay route draw pick oracle ctx

/-- Modelled from the spec: the passthrough gate on a matched resource. -/
def dispatchResource (ov : Option RuntimeOverride) (serverDelay : Option ℚ)
    (resource : ResourceEntry) (col : Collection) (draw : ℚ) (uuid : String)
    (method : String) (id : Option String) (body : JsonValue)
    (query : List (String × String)) : Outcome × Collection :=
  if (ov.bind RuntimeOverride.passthrough).getD false then (.proxied, col)
  else resourceBranch ov serverDelay resource col draw uuid method id body query

-- ── Concrete instances used by witnesses and counterexamples ────────────

/-- A template token `\x7b\x7bk\x7d\x7d` built without brace literals. -/
def tok (k : String) : String :=
  String.singleton lbrace ++ String.singleton lbrace ++ k ++
    String.singleton rbrace ++ String.singleton rbrace

/-- A faker oracle for requests that use no faker tokens. -/
def noFaker : FakerOracle := fun _ => none

/-- A context with no params, body, query or headers. -/
def ctxPlain : TemplateContext := ⟨[], .null, [], []⟩

/-- A context for a request with `?env=prod`. -/
def ctxProd : TemplateContext := ⟨[], .null, [("env", "prod")], []⟩

/-- A context for a request with `?x=2`. -/
def ctxX : TemplateContext := ⟨[], .null, [("x", "2")], []⟩

/-- `decodeURIComponent` instantiated as the identity (all witness paths
are decode-free). -/
def decId : String → String := fun s => s

/-- Sequence step A of the spec example. -/
def stepA : SequenceStep := { response := some (.str "A") }

/-- Sequence step B of the spec example, marked sticky. -/
def stepB : SequenceStep := { response := some (.str "B"), sticky := true }

/-- Sequence step C of the spec example. -/
def stepC : SequenceStep := { response := some (.str "C") }

/-- The conditional rule `\x7bwhen: \x7b"query.env": "prod"\x7d, status: 500\x7d`. -/
def ruleProd : RouteRule := { «when» := [("query.env", "prod")], status := some 500 }

/-- The unconditional default rule `\x7bstatus: 200\x7d`. -/
def ruleDefault : RouteRule := { status := some 200 }

/-- An override that only sets `passthrough: true`. -/
def ovPassthrough : RuntimeOverride := { passthrough := some true }

/-- An override that only sets `disabled: true`. -/
def ovDisabled : RuntimeOverride := { disabled := some true }

/-- An override that only sets `delay: 0`. -/
def ovZeroDelay : RuntimeOverride := { delay := some 0 }

/-- A route with a static delay of 100 ms, an error rate and a response,
used to show overrides win regardless of static config. -/
def route100 : Route :=
  { method := "GET", path := "/a", status := 200, delay := some 100,
    error := some (1/2), response := some (.str "hi") }

/-- A resource entry with static delay and error. -/
def resourceR : ResourceEntry :=
  { name := "users", basePath := "/users", idField := "id",
    delay := some 100, error := some (1/2) }

/-- A collection seeded with the single record `\x7bid: 1\x7d` (numeric id). -/
def seedOne : Collection := storeSeed (fun _ => "uuid-0") "id" [[("id", .num 1)]]

/-- The spec's coercion-eligibility test on a resolved string: a bare
`true`/`false` or integer/decimal literal. -/
def isBareLiteral (r : String) : Bool :=
  r = "true" ∨ r = "false" ∨ isIntLit r ∨ isDecLit r

/-- The parameter names declared by a path template's segments. -/
def paramNames (rsegs : List String) : List String :=
  (rsegs.filter fun r => r.startsWith ":").map fun r => r.drop 1

-- ── C5: passthrough override bypasses the mock handler ──────────────────

/-- C5: for every matched route or resource whose runtime override has
`passthrough` set to true, the request bypasses the normal mock handler
and goes to the proxy path, whatever the route/resource config, draws
and request are. -/
theorem passthrough_forces_proxy :
    (∀ (ov : Option RuntimeOverride) (serverDelay : Option ℚ) (route : Route)
       (draw : ℚ) (pick : ℕ) (oracle : FakerOracle) (ctx : TemplateContext),
      (ov.bind RuntimeOverride.passthrough).getD false = true →
        dispatchRoute ov serverDelay route draw pick oracle ctx = .proxied) ∧
    (∀ (ov : Option RuntimeOverride) (serverDelay : Option ℚ) (resource : ResourceEntry)
       (col : Collection) (draw : ℚ) (uuid : String) (method : String)
       (id : Option String) (body : JsonValue) (query : List (String × String)),
      (ov.bind RuntimeOverride.passthrough).getD false = true →
        dispatchResource ov serverDelay resource col draw uuid method id body query =
          (.proxied, col)) := by
  constructor
  · intro ov serverDelay route draw pick oracle ctx h
    simp [dispatchRoute, h]
  · intro ov serverDelay resource col draw uuid method id body query h
    simp [dispatchResource, h]

/-- C5 witness: a concrete matched route and resource under
`\x7bpassthrough: true\x7d` both go to the proxy path. -/
theorem passthrough_forces_proxy_witness :
    dispatchRoute (some ovPassthrough) none route100 0 0 noFaker ctxPlain = .proxied ∧
    dispatchResource (some ovPassthrough) none resourceR seedOne 0 "u" "GET" none .null [] =
      (.proxied, seedOne) :=
  ⟨passthrough_forces_proxy.1 (some ovPassthrough) none route100 0 0 noFaker ctxPlain rfl,
   passthrough_forces_proxy.2 (some ovPassthrough) none resourceR seedOne 0 "u" "GET" none .null [] rfl⟩

-- ── C6: disabled override short-circuits to a fixed 503 ─────────────────

/-- C6: for every matched route or resource whose runtime override has
`disabled` set to true, the branch returns the fixed 503 response,
whatever the configured delay, error rate or response and whatever the
random draws — and the `disabled` outcome carries no awaited delay, since
the short-circuit happens before the delay/error/response logic. -/
theorem disabled_short_circuit :
    (∀ (ov : Option RuntimeOverride) (serverDelay : Option ℚ) (route : Route)
       (draw : ℚ) (pick : ℕ) (oracle : FakerOracle) (ctx : TemplateContext),
      (ov.bind RuntimeOverride.disabled).getD false = true →
        routeBranch ov serverDelay route draw pick oracle ctx =
          .disabled 503 disabledRouteBody) ∧
    (∀ (ov : Option RuntimeOverride) (serverDelay : Option ℚ) (resource : ResourceEntry)
       (col : Collection) (draw : ℚ) (uuid : String) (method : String)
       (id : Option String) (body : JsonValue) (query : List (String × String)),
      (ov.bind RuntimeOverride.disabled).getD false = true →
        resourceBranch ov serverDelay resource col draw uuid method id body query =
          (.disabled 503 disabledResourceBody, col)) := by
  constructor
  · intro ov serverDelay route draw pick oracle ctx h
    simp [routeBranch, h]
  · intro ov serverDelay resource col draw uuid method id body query h
    simp [resourceBranch, h]

/-- C6 witness: a route with static delay 100, 50% error and a response,
and likewise a resource, under `\x7bdisabled: true\x7d` both return the fixed
503 outcome. -/
theorem disabled_short_circuit_witness :
    routeBranch (some ovDisabled) (some 30) route100 0 0 noFaker ctxPlain =
      .disabled 503 disabledRouteBody ∧
    resourceBranch (some ovDisabled) (some 30) resourceR seedOne 0 "u" "GET" none .null [] =
      (.disabled 503 disabledResourceBody, seedOne) :=
  ⟨disabled_short_circuit.1 (some ovDisabled) (some 30) route100 0 0 noFaker ctxPlain rfl,
   disabled_short_circuit.2 (some ovDisabled) (some 30) resourceR seedOne 0 "u" "GET" none .null [] rfl⟩

-- ── C7: delay lookup order ──────────────────────────────────────────────

/-- C7: the effective delay is the override's delay whenever the override
entry exists with a non-undefined delay (including 0); else the static
config delay; else the server-wide default; else 0 — and the delay a
non-disabled route branch actually awaits is the effective delay when
positive.  In particular a static delay of 100 under an override delay of
0 yields an effective delay of 0. -/
theorem delay_override_precedence :
    (∀ (o : RuntimeOverride) (s d : Option ℚ) (q : ℚ),
      o.delay = some q → effectiveDelay (some o) s d = q) ∧
    (∀ (ov : Option RuntimeOverride) (s : ℚ) (d : Option ℚ),
      (ov.bind RuntimeOverride.delay) = none →
        effectiveDelay ov (some s) d = s) ∧
    (∀ (ov : Option RuntimeOverride) (d : ℚ),
      (ov.bind RuntimeOverride.delay) = none →
        effectiveDelay ov none (some d) = d) ∧
    (∀ (ov : Option RuntimeOverride),
      (ov.bind RuntimeOverride.delay) = none →
        effectiveDelay ov none none = 0) ∧
    (∀ (o : RuntimeOverride) (d : Option ℚ),
      o.delay = some 0 → effectiveDelay (some o) (some 100) d = 0) ∧
    (∀ (ov : Option RuntimeOverride) (serverDelay : Option ℚ) (route : Route)
       (draw : ℚ) (pick : ℕ) (oracle : FakerOracle) (ctx : TemplateContext),
      (ov.bind RuntimeOverride.disabled).getD false = false →
        routeBranch ov serverDelay route draw pick oracle ctx =
            Outcome.injected (sleptFor (effectiveDelay ov route.delay serverDelay))
              (errStatusOf route.errorStatus) ∨
          ∃ st hs b, routeBranch ov serverDelay route draw pick oracle ctx =
            Outcome.mock (sleptFor (effectiveDelay ov route.delay serverDelay)) st hs b) := by
  refine ⟨?_, ?_, ?_, ?_, ?_, ?_⟩
  · intro o s d q h
    simp [effectiveDelay, h]
  · intro ov s d h
    simp [effectiveDelay, h]
  · intro ov d h
    simp [effectiveDelay, h]
  · intro ov h
    simp [effectiveDelay, h]
  · intro o d h
    simp [effectiveDelay, h]
  · intro ov serverDelay route draw pick oracle ctx h
    rw [routeBranch]
    simp only [h, Bool.false_eq_true, if_false]
    by_cases he : effectiveError ov route.error > 0 ∧ draw < effectiveError ov route.error
    · left; simp [he]
    · right
      rw [if_neg he]
      exact ⟨_, _, _, rfl⟩

/-- C7 witness: an override delay of 0 over a static delay of 100 (and a
server default of 30) gives effective delay 0. -/
theorem delay_override_precedence_witness :
    effectiveDelay (some ovZeroDelay) (some 100) (some 30) = 0 :=
  delay_override_precedence.2.2.2.2.1 ovZeroDelay (some 30) rfl

-- ── C8: unparseable request bodies ──────────────────────────────────────

/-- C8 counterexample: `hello` is not parseable as JSON, yet the body
resolves to the raw string `hello`, not to null — the claim that an
unparseable body is treated as a null body fails. -/
theorem malformed_body_counterexample :
    jsonParse "hello" = none ∧
    parseBodyResult jsonParse "hello" = .str "hello" ∧
    JsonValue.str "hello" ≠ JsonValue.null := by
  refine ⟨?_, ?_, ?_⟩
  · with_unfolding_all rfl
  · with_unfolding_all rfl
  · simp

/-- C8 amended: on a parse failure the request continues with the raw
string as the body when the raw body is non-empty, and with a null body
only when it is empty (the only aborting path would be a rejection, and
`parseBody` always resolves). -/
theorem malformed_body_amended :
    ∀ (tryParse : String → Option JsonValue) (raw : String),
      tryParse raw = none →
        (raw ≠ "" → parseBodyResult tryParse raw = .str raw) ∧
        (raw = "" → parseBodyResult tryParse raw = .null) := by
  intro tryParse raw h
  constructor
  · intro hne
    simp [parseBodyResult, h, hne]
  · intro he
    subst he
    simp [parseBodyResult, h]

/-- C8 amended witness: the unparseable body `hello` continues as the raw
string body. -/
theorem malformed_body_amended_witness :
    parseBodyResult jsonParse "hello" = .str "hello" :=
  (malformed_body_amended jsonParse "hello" (by with_unfolding_all rfl)).1 (by simp)

-- ── C10: seeding silently drops non-object instantiations ───────────────

/-- A template applied to a number returns it unchanged. -/
theorem processTemplate_num (oracle : FakerOracle) (ctx : TemplateContext) (q : ℚ) :
    processTemplate oracle ctx (.num q) = .num q := by
  rw [processTemplate] <;> simp

/-- C10: the seed loop instantiates the template `count` times (`count`
defaulting to 5) but keeps only plain-object results, so the seeded
collection can hold fewer than `count` records — e.g. a numeric seed
template yields an empty collection for any faker draws — and no error is
reported (the functions are total and return normally). -/
theorem seed_drops_non_objects :
    (∀ (oracleAt : ℕ → FakerOracle) (seedTemplate : JsonValue) (count : ℕ),
      (seedItems oracleAt seedTemplate count).length ≤ count) ∧
    (∀ cfg : ResourceConfig, cfg.count = none → countOf cfg = 5) ∧
    (∀ oracleAt : ℕ → FakerOracle, seedItems oracleAt (.num 42) 5 = []) ∧
    (∀ (uuidAt : ℕ → String) (oracleAt : ℕ → FakerOracle) (name : String)
       (cfg : ResourceConfig), cfg.seed = .num 42 → cfg.count = none →
        (seedResource uuidAt oracleAt name cfg).2 = ([] : Collection)) := by
  have hnum : ∀ (oracleAt : ℕ → FakerOracle), seedItems oracleAt (.num 42) 5 = [] := by
    intro oracleAt
    simp [seedItems, processTemplate_num, asRecord]
  refine ⟨?_, ?_, hnum, ?_⟩
  · intro oracleAt seedTemplate count
    calc (seedItems oracleAt seedTemplate count).length
        ≤ (List.range count).length := List.length_filterMap_le _ _
      _ = count := List.length_range count
  · intro cfg h
    simp [countOf, h]
  · intro uuidAt oracleAt name cfg hseed hcount
    simp [seedResource, hseed, countOf, hcount, hnum, storeSeed]

/-- C10 witness: a resource whose seed template is the number 42 with the
default count seeds an empty collection. -/
theorem seed_drops_non_objects_witness :
    (seedResource (fun _ => "u") (fun _ => noFaker) "nums"
      { basePath := "/nums", seed := .num 42 }).2 = ([] : Collection) :=
  seed_drops_non_objects.2.2.2 (fun _ => "u") (fun _ => noFaker) "nums"
    { basePath := "/nums", seed := .num 42 } rfl rfl

-- ── C1: sequence cursor semantics (spec-modelled) ───────────────────────

/-- C1: each server keeps one cursor per route index initialized to 0;
a request is answered from `steps[cursor]` and only that route's cursor
advances — not at all when the current step is sticky, by one when the
cursor is below the last index, and not past the last index otherwise —
so the cursor never exceeds `steps.length - 1`, and for steps
`[A, B(sticky), C]` four requests answer A, B, B, B. -/
theorem sequence_cursor_semantics :
    (∀ i, seqInitial i = 0) ∧
    (∀ steps routeIdx cur, (seqHandle steps routeIdx cur).1 = seqStepAt steps (cur routeIdx)) ∧
    (∀ steps routeIdx cur,
      (seqHandle steps routeIdx cur).2 routeIdx = seqAdvance steps (cur routeIdx)) ∧
    (∀ steps routeIdx cur j, j ≠ routeIdx → (seqHandle steps routeIdx cur).2 j = cur j) ∧
    (∀ steps c, (seqStepAt steps c).sticky = true → seqAdvance steps c = c) ∧
    (∀ steps c, (seqStepAt steps c).sticky = false → c < steps.length - 1 →
      seqAdvance steps c = c + 1) ∧
    (∀ steps c, (seqStepAt steps c).sticky = false → ¬ c < steps.length - 1 →
      seqAdvance steps c = c) ∧
    (∀ steps c, c ≤ steps.length - 1 → seqAdvance steps c ≤ steps.length - 1) ∧
    (∀ A B C : SequenceStep, A.sticky = false → B.sticky = true →
      seqTrace [A, B, C] 0 4 = [A, B, B, B]) := by
  refine ⟨fun _ => rfl, fun _ _ _ => rfl, fun _ _ _ => by simp [seqHandle], ?_, ?_, ?_, ?_, ?_, ?_⟩
  · intro steps routeIdx cur j hj
    simp [seqHandle, hj]
  · intro steps c h
    simp [seqAdvance, seqStepAt] at h ⊢
    simp [h]
  · intro steps c h hc
    simp [seqAdvance, seqStepAt] at h ⊢
    simp [h, hc]
  · intro steps c h hc
    have h2 : ¬ (steps.getD c default).sticky = true := by
      rw [← seqStepAt, h]
      simp
    rw [seqAdvance, if_neg h2, if_neg hc]
  · intro steps c hc
    rw [seqAdvance]
    by_cases hs : (steps.getD c default).sticky = true
    · rw [if_pos hs]; exact hc
    · rw [if_neg hs]
      by_cases hlt : c < steps.length - 1
      · rw [if_pos hlt]; omega
      · rw [if_neg hlt]; exact hc
  · intro A B C hA hB
    simp [seqTrace, seqStepAt, seqAdvance, hA, hB]

/-- C1 witness: the concrete sticky example — requests 1..4 against
`[A, B(sticky), C]` answer A, B, B, B. -/
theorem sequence_cursor_semantics_witness :
    seqTrace [stepA, stepB, stepC] 0 4 = [stepA, stepB, stepB, stepB] :=
  sequence_cursor_semantics.2.2.2.2.2.2.2.2 stepA stepB stepC rfl rfl

-- ── C2: conditional rules (spec-modelled) ───────────────────────────────

/-- C2: rules are evaluated in list order and the first rule whose every
`when` entry stringifies equal to the resolved context path wins (an
empty or absent `when` matches unconditionally); with no matching rule
the route's base status/response is used; and the spec example —
`[...when query.env = prod → 500, default → 200]` — answers 500 with
`?env=prod` and 200 without. -/
theorem rules_first_match :
    (∀ (bs : ℕ) (br : Option JsonValue) (ctx : TemplateContext) (r : RouteRule)
       (rs : List RouteRule), ruleMatches ctx r = true →
        resolveRules bs br (r :: rs) ctx = (r.status.getD bs, r.response.or br)) ∧
    (∀ (bs : ℕ) (br : Option JsonValue) (ctx : TemplateContext) (r : RouteRule)
       (rs : List RouteRule), ruleMatches ctx r = false →
        resolveRules bs br (r :: rs) ctx = resolveRules bs br rs ctx) ∧
    (∀ (ctx : TemplateContext) (r : RouteRule), r.when = [] → ruleMatches ctx r = true) ∧
    (∀ (bs : ℕ) (br : Option JsonValue) (ctx : TemplateContext),
      resolveRules bs br [] ctx = (bs, br)) ∧
    (resolveRules 200 none [ruleProd, ruleDefault] ctxProd).1 = 500 ∧
    (resolveRules 200 none [ruleProd, ruleDefault] ctxPlain).1 = 200 := by
  refine ⟨?_, ?_, ?_, ?_, ?_, ?_⟩
  · intro bs br ctx r rs h
    simp [resolveRules, List.find?_cons_of_pos, h]
  · intro bs br ctx r rs h
    simp [resolveRules, List.find?_cons_of_neg, h]
  · intro ctx r h
    simp [ruleMatches, h]
  · intro bs br ctx
    simp [resolveRules]
  · with_unfolding_all rfl
  · with_unfolding_all rfl

/-- C2 witness: the matching first rule of the spec example wins with its
own status. -/
theorem rules_first_match_witness :
    resolveRules 200 none [ruleProd, ruleDefault] ctxProd =
      (ruleProd.status.getD 200, ruleProd.response.or none) :=
  rules_first_match.1 200 none ctxProd ruleProd [ruleDefault] (by with_unfolding_all rfl)

-- ── C3: id type preservation across writes ──────────────────────────────

/-- Overwriting a field and reading it back. -/
theorem getField_setKey_self (r : List (String × JsonValue)) (k : String) (v : JsonValue) :
    getField (setKey r k v) k = some v := by
  induction r with
  | nil => simp [setKey, getField]
  | cons kv rest ih =>
    by_cases h : kv.1 = k
    · simp [setKey, h, getField]
    · simp [setKey, h, getField, ih]

/-- C3 counterexample: a collection seeded with the numeric-id record
`\x7bid: 1\x7d` answers `PUT .../1` with an empty body by storing `\x7bid: "1"\x7d` —
the id silently flips from number to string although the seed value was
numeric and the id string is numeric-looking.  Also, with a numeric
original, the numeric-looking supplied id `"0"` is stored as a string
(`Number(id) || id` falls through on 0). -/
theorem id_type_change_counterexample :
    colGet seedOne "1" = some [("id", JsonValue.num 1)] ∧
    storeUpdate "id" seedOne "1" [] =
      some ([("id", JsonValue.str "1")], [("1", [("id", JsonValue.str "1")])]) ∧
    JsonValue.str "1" ≠ JsonValue.num 1 ∧
    coerceId "0" (some (.num 5)) = .str "0" := by
  refine ⟨?_, ?_, ?_, ?_⟩
  · with_unfolding_all rfl
  · with_unfolding_all rfl
  · simp
  · with_unfolding_all rfl

/-- C3 amended: the id's stored type is re-inferred at each write from
the value passed to `coerceId` for that write — `update` uses the
incoming body's id field (so a body without an id field stores a string
id whatever the seed type), `patch` uses the existing record's id field —
and with a numeric original a numeric-looking id is stored as a number
only when its numeric value is non-zero; otherwise the string id is
stored. -/
theorem id_type_per_write :
    (∀ (idField : String) (col : Collection) (id : String) (incoming rec : JsonRecord)
       (ncol : Collection),
      storeUpdate idField col id incoming = some (rec, ncol) →
        getField rec idField = some (coerceId id (getField incoming idField))) ∧
    (∀ (idField : String) (col : Collection) (id : String) (incoming ex : JsonRecord),
      colGet col id = some ex →
        ∃ rec ncol, storePatch idField col id incoming = some (rec, ncol) ∧
          getField rec idField = some (coerceId id (getField ex idField))) ∧
    (∀ id, coerceId id none = .str id) ∧
    (∀ id s, coerceId id (some (.str s)) = .str id) ∧
    (∀ (id : String) (q2 q : ℚ), jsNumber id = some q → q ≠ 0 →
      coerceId id (some (.num q2)) = .num q) ∧
    (∀ (id : String) (q2 : ℚ), jsNumber id = none →
      coerceId id (some (.num q2)) = .str id) ∧
    (∀ (id : String) (q2 : ℚ), jsNumber id = some 0 →
      coerceId id (some (.num q2)) = .str id) := by
  refine ⟨?_, ?_, fun id => rfl, fun id s => rfl, ?_, ?_, ?_⟩
  · intro idField col id incoming rec ncol h
    rw [storeUpdate] at h
    by_cases hc : colHas col id = true
    · rw [if_pos hc] at h
      simp at h
      rw [← h.1]
      exact getField_setKey_self _ _ _
    · rw [if_neg hc] at h
      exact absurd h (by simp)
  · intro idField col id incoming ex h
    have hp : storePatch idField col id incoming =
        some (setKey (incoming.foldl (fun acc kv => setKey acc kv.1 kv.2) ex) idField
                (coerceId id (getField ex idField)),
              colSet col id (setKey (incoming.foldl (fun acc kv => setKey acc kv.1 kv.2) ex)
                idField (coerceId id (getField ex idField)))) := by
      rw [storePatch, h]
    exact ⟨_, _, hp, getField_setKey_self _ _ _⟩
  · intro id q2 q h hq
    simp [coerceId, h, hq]
  · intro id q2 h
    simp [coerceId, h]
  · intro id q2 h
    simp [coerceId, h]

/-- C3 amended witness: the concrete update of the seeded record through
the amended statement. -/
theorem id_type_per_write_witness :
    getField [("id", JsonValue.str "1")] "id" =
      some (coerceId "1" (getField ([] : JsonRecord) "id")) :=
  id_type_per_write.1 "id" seedOne "1" [] [("id", JsonValue.str "1")]
    [("1", [("id", JsonValue.str "1")])] (by with_unfolding_all rfl)

-- ── C4: template auto-coercion ──────────────────────────────────────────

/-- The string arm of `processTemplate`. -/
theorem processTemplate_str (oracle : FakerOracle) (ctx : TemplateContext) (s : String) :
    processTemplate oracle ctx (.str s) = coerceResult (processString oracle ctx s) := by
  rw [processTemplate]

/-- C4 counterexample: coercion is decided by the final resolved string
alone.  With `?x=2`, the template `1\x7b\x7bquery.x\x7d\x7d` (literal text around
a token) resolves to `12` and is coerced to the number 12, and the
two-token template `\x7b\x7bquery.x\x7d\x7d\x7b\x7bquery.x\x7d\x7d` resolves to `22`
and is coerced to the number 22 — both contradict "a string containing
multiple tokens, or literal text surrounding a token, is never coerced
and stays a string". -/
theorem template_coercion_counterexample :
    processTemplate noFaker ctxX (.str ("1" ++ tok "query.x")) = .num 12 ∧
    processTemplate noFaker ctxX (.str (tok "query.x" ++ tok "query.x")) = .num 22 ∧
    (∀ s, JsonValue.num 12 ≠ JsonValue.str s) := by
  refine ⟨?_, ?_, ?_⟩
  · rw [processTemplate_str]; with_unfolding_all rfl
  · rw [processTemplate_str]; with_unfolding_all rfl
  · intro s; simp

/-- C4 amended: the resolved string is coerced exactly when, as a whole,
it is a bare `true`/`false` or integer/decimal literal — when it is not,
the value stays the resolved string; when it is, the result is never a
string — regardless of how many tokens or how much surrounding literal
text produced it. -/
theorem template_coercion_amended :
    ∀ (oracle : FakerOracle) (ctx : TemplateContext) (s : String),
      (isBareLiteral (processString oracle ctx s) = false →
        processTemplate oracle ctx (.str s) = .str (processString oracle ctx s)) ∧
      (isBareLiteral (processString oracle ctx s) = true →
        ∀ t, processTemplate oracle ctx (.str s) ≠ .str t) := by
  intro oracle ctx s
  constructor
  · intro h
    rw [processTemplate_str, coerceResult]
    simp [isBareLiteral] at h
    obtain ⟨h1, h2, h3, h4⟩ := h
    rw [if_neg h1, if_neg h2, if_neg (by simp [h3]), if_neg (by simp [h4])]
  · intro h t
    rw [processTemplate_str, coerceResult]
    simp [isBareLiteral] at h
    rcases h with h | h | h | h
    · rw [if_pos h]; simp
    · rw [h]; simp
    · have hT : processString oracle ctx s ≠ "true" := by
        intro he; rw [he] at h; exact absurd h (by decide)
      have hF : processString oracle ctx s ≠ "false" := by
        intro he; rw [he] at h; exact absurd h (by decide)
      rw [if_neg hT, if_neg hF, if_pos h]; simp
    · have hT : processString oracle ctx s ≠ "true" := by
        intro he; rw [he] at h; exact absurd h (by decide)
      have hF : processString oracle ctx s ≠ "false" := by
        intro he; rw [he] at h; exact absurd h (by decide)
      by_cases hi : isIntLit (processString oracle ctx s) = true
      · rw [if_neg hT, if_neg hF, if_pos hi]; simp
      · rw [if_neg hT, if_neg hF, if_neg hi, if_pos h]; simp

/-- C4 amended witness: a resolved string that is not a bare literal
stays a string. -/
theorem template_coercion_amended_witness :
    processTemplate noFaker ctxPlain (.str "abc") = .str (processString noFaker ctxPlain "abc") :=
  (template_coercion_amended noFaker ctxPlain "abc").1 (by with_unfolding_all rfl)

-- ── C9: route matching ──────────────────────────────────────────────────

/-- Setting then reading a key in a string map. -/
theorem getStr_setStr_self (m : List (String × String)) (k v : String) :
    getStr (setStr m k v) k = some v := by
  induction m with
  | nil => simp [setStr, getStr]
  | cons kv rest ih =>
    by_cases h : kv.1 = k
    · simp [setStr, h, getStr]
    · simp [setStr, h, getStr, ih]

/-- Setting one key leaves other keys unchanged. -/
theorem getStr_setStr_other (m : List (String × String)) (k k2 v : String) (h : k ≠ k2) :
    getStr (setStr m k2 v) k = getStr m k := by
  induction m with
  | nil =>
    have h2 : ¬ k2 = k := fun he => h he.symm
    simp [setStr, getStr, h2]
  | cons kv rest ih =>
    obtain ⟨k1, v1⟩ := kv
    by_cases h2 : k1 = k2
    · have hk : ¬ k1 = k := by rw [h2]; exact fun he => h he.symm
      rw [setStr, if_pos h2, getStr, if_neg (fun he => h he.symm), getStr, if_neg hk]
    · by_cases h3 : k1 = k
      · rw [setStr, if_neg h2, getStr, if_pos h3, getStr, if_pos h3]
      · rw [setStr, if_neg h2, getStr, if_neg h3, getStr, if_neg h3, ih]

/-- A `:param` head contributes its name to `paramNames`. -/
theorem paramNames_cons_param (r : String) (rs : List String) (h : r.startsWith ":" = true) :
    paramNames (r :: rs) = r.drop 1 :: paramNames rs := by
  simp [paramNames, h]

/-- A literal head contributes nothing to `paramNames`. -/
theorem paramNames_cons_lit (r : String) (rs : List String) (h : ¬ r.startsWith ":" = true) :
    paramNames (r :: rs) = paramNames rs := by
  simp [paramNames, h]

/-- The segment loop succeeds only on equal-length lists. -/
theorem matchSegs_length (dec : String → String) :
    ∀ (rs ps : List String) (acc out : List (String × String)),
      matchSegs dec rs ps acc = some out → rs.length = ps.length := by
  intro rs
  induction rs with
  | nil =>
    intro ps acc out h
    cases ps with
    | nil => rfl
    | cons p ps => simp [matchSegs] at h
  | cons r rs ih =>
    intro ps acc out h
    cases ps with
    | nil => simp [matchSegs] at h
    | cons p ps =>
      rw [matchSegs] at h
      by_cases hr : r.startsWith ":" = true
      · rw [if_pos hr] at h
        simpa using ih ps _ out h
      · rw [if_neg hr] at h
        by_cases hrp : r = p
        · rw [if_pos hrp] at h
          simpa using ih ps acc out h
        · rw [if_neg hrp] at h
          exact absurd h (by simp)

/-- The segment loop only adds bindings for names in `paramNames`. -/
theorem matchSegs_preserve (dec : String → String) :
    ∀ (rs ps : List String) (acc out : List (String × String)) (n : String),
      matchSegs dec rs ps acc = some out → n ∉ paramNames rs →
        getStr out n = getStr acc n := by
  intro rs
  induction rs with
  | nil =>
    intro ps acc out n h _
    cases ps with
    | nil => simp [matchSegs] at h; rw [h]
    | cons p ps => simp [matchSegs] at h
  | cons r rs ih =>
    intro ps acc out n h hn
    cases ps with
    | nil => simp [matchSegs] at h
    | cons p ps =>
      rw [matchSegs] at h
      by_cases hr : r.startsWith ":" = true
      · rw [if_pos hr] at h
        rw [paramNames_cons_param r rs hr] at hn
        simp at hn
        rw [ih ps _ out n h hn.2]
        exact getStr_setStr_other acc n (r.drop 1) (dec p) hn.1
      · rw [if_neg hr] at h
        rw [paramNames_cons_lit r rs hr] at hn
        by_cases hrp : r = p
        · rw [if_pos hrp] at h
          exact ih ps acc out n h hn
        · rw [if_neg hrp] at h
          exact absurd h (by simp)

/-- Parameter extraction: under distinct parameter names, every `:param`
segment's name maps to its decoded positional request segment. -/
theorem matchSegs_extract (dec : String → String) :
    ∀ (rs ps : List String) (acc out : List (String × String)),
      matchSegs dec rs ps acc = some out → (paramNames rs).Nodup →
      ∀ i, i < rs.length → (rs.getD i "").startsWith ":" = true →
        getStr out ((rs.getD i "").drop 1) = some (dec (ps.getD i "")) := by
  intro rs
  induction rs with
  | nil => intro ps acc out _ _ i hi; exact absurd hi (by simp)
  | cons r rs ih =>
    intro ps acc out h hnodup i hi hstart
    cases ps with
    | nil => simp [matchSegs] at h
    | cons p ps =>
      rw [matchSegs] at h
      by_cases hr : r.startsWith ":" = true
      · rw [if_pos hr] at h
        rw [paramNames_cons_param r rs hr] at hnodup
        have hnotin : r.drop 1 ∉ paramNames rs := by
          simpa using hnodup.not_mem
        cases i with
        | zero =>
          simp only [List.getD_cons_zero]
          rw [matchSegs_preserve dec rs ps _ out (r.drop 1) h hnotin]
          exact getStr_setStr_self acc (r.drop 1) (dec p)
        | succ i =>
          simp only [List.getD_cons_succ] at hstart ⊢
          exact ih ps _ out h hnodup.of_cons i (by simpa using hi) hstart
      · rw [if_neg hr] at h
        cases i with
        | zero =>
          simp only [List.getD_cons_zero] at hstart
          exact absurd hstart hr
        | succ i =>
          rw [paramNames_cons_lit r rs hr] at hnodup
          by_cases hrp : r = p
          · rw [if_pos hrp] at h
            simp only [List.getD_cons_succ] at hstart ⊢
            exact ih ps acc out h hnodup i (by simpa using hi) hstart
          · rw [if_neg hrp] at h
            exact absurd h (by simp)

/-- Literal segments must equal their positional request segment. -/
theorem matchSegs_literal (dec : String → String) :
    ∀ (rs ps : List String) (acc out : List (String × String)),
      matchSegs dec rs ps acc = some out →
      ∀ i, i < rs.length → ¬ (rs.getD i "").startsWith ":" = true →
        rs.getD i "" = ps.getD i "" := by
  intro rs
  induction rs with
  | nil => intro ps acc out _ i hi; exact absurd hi (by simp)
  | cons r rs ih =>
    intro ps acc out h i hi hstart
    cases ps with
    | nil => simp [matchSegs] at h
    | cons p ps =>
      rw [matchSegs] at h
      by_cases hr : r.startsWith ":" = true
      · rw [if_pos hr] at h
        cases i with
        | zero => simp only [List.getD_cons_zero] at hstart; exact absurd hr hstart
        | succ i =>
          simp only [List.getD_cons_succ] at hstart ⊢
          exact ih ps _ out h i (by simpa using hi) hstart
      · rw [if_neg hr] at h
        by_cases hrp : r = p
        · cases i with
          | zero => simpa using hrp
          | succ i =>
            rw [if_pos hrp] at h
            simp only [List.getD_cons_succ] at hstart ⊢
            exact ih ps acc out h i (by simpa using hi) hstart
        · rw [if_neg hrp] at h
          exact absurd h (by simp)

/-- C9: routes are tried in declaration order with the first structural
match winning; a route is skipped when its method neither equals the
request method nor is `*`, or its segment count differs; and on a match
every literal segment equals its positional request segment while — for
distinct parameter names, which "all M parameters" presupposes — every
`:param` segment binds its decoded positional request segment, wherever
it sits in the template. -/
theorem route_matching_first_wins :
    (∀ (dec : String → String) (method p : String) (r : Route) (rest : List Route)
       (ps : List (String × String)),
      tryRoute dec method (pathSegs p) r = some ps →
        matchRoute dec (r :: rest) method p = some (r, ps)) ∧
    (∀ (dec : String → String) (method p : String) (r : Route) (rest : List Route),
      tryRoute dec method (pathSegs p) r = none →
        matchRoute dec (r :: rest) method p = matchRoute dec rest method p) ∧
    (∀ (dec : String → String) (method : String) (segs : List String) (r : Route),
      r.method ≠ method → r.method ≠ "*" → tryRoute dec method segs r = none) ∧
    (∀ (dec : String → String) (method : String) (segs : List String) (r : Route),
      (pathSegs r.path).length ≠ segs.length → tryRoute dec method segs r = none) ∧
    (∀ (dec : String → String) (rs ps : List String) (out : List (String × String)),
      matchSegs dec rs ps [] = some out → (paramNames rs).Nodup →
      ∀ i, i < rs.length → (rs.getD i "").startsWith ":" = true →
        getStr out ((rs.getD i "").drop 1) = some (dec (ps.getD i ""))) ∧
    (∀ (dec : String → String) (rs ps : List String) (out : List (String × String)),
      matchSegs dec rs ps [] = some out →
      ∀ i, i < rs.length → ¬ (rs.getD i "").startsWith ":" = true →
        rs.getD i "" = ps.getD i "") := by
  refine ⟨?_, ?_, ?_, ?_, ?_, ?_⟩
  · intro dec method p r rest ps h
    rw [matchRoute, h]
  · intro dec method p r rest h
    rw [matchRoute, h]
  · intro dec method segs r h1 h2
    rw [tryRoute, if_pos ⟨h1, h2⟩]
  · intro dec method segs r hlen
    rw [tryRoute]
    by_cases hm : r.method ≠ method ∧ r.method ≠ "*"
    · rw [if_pos hm]
    · rw [if_neg hm, if_pos hlen]
  · intro dec rs ps out h hnodup
    exact matchSegs_extract dec rs ps [] out h hnodup
  · intro dec rs ps out h
    exact matchSegs_literal dec rs ps [] out h

/-- C9 witness: the pattern `/a/:x/b/:y` against `/a/1/b/2` extracts both
parameters at their positions. -/
theorem route_matching_first_wins_witness :
    getStr [("x", "1"), ("y", "2")] ((["a", ":x", "b", ":y"].getD 1 "").drop 1) =
      some (decId (["a", "1", "b", "2"].getD 1 "")) ∧
    getStr [("x", "1"), ("y", "2")] ((["a", ":x", "b", ":y"].getD 3 "").drop 1) =
      some (decId (["a", "1", "b", "2"].getD 3 "")) :=
  ⟨route_matching_first_wins.2.2.2.2.1 decId ["a", ":x", "b", ":y"] ["a", "1", "b", "2"]
      [("x", "1"), ("y", "2")] (by with_unfolding_all rfl) (by with_unfolding_all decide)
      1 (by decide) (by with_unfolding_all rfl),
   route_matching_first_wins.2.2.2.2.1 decId ["a", ":x", "b", ":y"] ["a", "1", "b", "2"]
      [("x", "1"), ("y", "2")] (by with_unfolding_all rfl) (by with_unfolding_all decide)
      3 (by decide) (by with_unfolding_all rfl)⟩

end QuickMock
